import Mathlib

/-!
# Verification of the janMarg admin workflow (src/routes/admin.js)

A shallow embedding of the admin report-management routes of the janMarg
backend: the report lifecycle status machine, the assignment and bidding
workflow, the moderation subsystem, contractor blocking, completion-proof
review, and the derived priority score.  The persistent store (Prisma) is
modelled as explicit lists of records; each route handler becomes a pure
function from a store and its request parameters to an outcome (an HTTP-level
result together with the resulting store).  Timestamps are naturals
(milliseconds); `new Date()` becomes an explicit `now` parameter.
-/

set_option maxRecDepth 4000

/-- Report lifecycle statuses, from the validStatuses list of
PATCH /reports/:id/status. -/
inductive ReportStatus
  | OPEN | DUPLICATE | MERGED | VALIDATED | IN_BIDDING
  | ASSIGNED | IN_PROGRESS | PENDING_CITIZEN_REVIEW
  | COMPLETED | VERIFIED | CLOSED | REJECTED | AUTO_CLOSED
  deriving DecidableEq, Repr

/-- Bid statuses (PENDING / ACCEPTED / REJECTED). -/
inductive BidStatus
  | PENDING | ACCEPTED | REJECTED
  deriving DecidableEq, Repr

/-- Assignment statuses. -/
inductive AssignmentStatus
  | ASSIGNED | IN_PROGRESS | COMPLETED | CANCELLED
  deriving DecidableEq, Repr

/-- Completion-proof review statuses. -/
inductive ProofStatus
  | PENDING | APPROVED | REJECTED
  deriving DecidableEq, Repr

/-- Moderation action tags, from the validActions list of
POST /reports/:id/moderate. -/
inductive ModAction
  | FLAG_SPAM | MARK_SENSITIVE | HIDE | APPROVE
  | MARK_DUPLICATE | ESCALATE | REJECT | UNFLAG
  deriving DecidableEq, Repr

/-- A report row: the fields of the Report model that the admin routes read
or write. -/
structure Report where
  id : Nat
  status : ReportStatus
  severity : Int
  upvotes : Nat
  isSpam : Bool
  isSensitive : Bool
  isDuplicate : Bool
  duplicateOfId : Option Nat
  departmentId : Option Nat
  closedAt : Option Nat
  completedAt : Option Nat
  createdAt : Nat
  updatedAt : Nat
  deriving DecidableEq, Repr

/-- A bid row. -/
structure Bid where
  id : Nat
  reportId : Nat
  contractorId : Nat
  proposedCost : Int
  estimatedDays : Nat
  isPreferred : Bool
  status : BidStatus
  acceptedAt : Option Nat
  acceptedBy : Option String
  rejectedAt : Option Nat
  deriving DecidableEq, Repr

/-- An assignment row. -/
structure Assignment where
  id : Nat
  reportId : Nat
  contractorId : Nat
  assignedById : String
  bidId : Option Nat
  agreedCost : Option Int
  deadlineAt : Option Nat
  status : AssignmentStatus
  completedAt : Option Nat
  cancelledAt : Option Nat
  cancelReason : Option String
  deriving DecidableEq, Repr

/-- A contractor row. -/
structure Contractor where
  id : Nat
  isBlocked : Bool
  blockReason : Option String
  blockedAt : Option Nat
  blockedBy : Option String
  updatedAt : Nat
  deriving DecidableEq, Repr

/-- A completion-proof row. -/
structure CompletionProof where
  id : Nat
  assignmentId : Nat
  status : ProofStatus
  reviewedAt : Option Nat
  reviewedBy : Option String
  reviewNotes : Option String
  deriving DecidableEq, Repr

/-- A report-history entry (prisma.reportHistory.create). -/
structure HistoryEntry where
  reportId : Nat
  actorId : String
  action : String
  oldStatus : Option ReportStatus
  newStatus : Option ReportStatus
  justification : Option String
  isSystemGenerated : Bool
  deriving DecidableEq, Repr

/-- An admin audit-log entry (prisma.adminLog.create). -/
structure AdminLogEntry where
  adminId : String
  adminRole : String
  entityType : String
  entityId : Nat
  actionType : String
  justificationMessage : String
  deriving DecidableEq, Repr

/-- A moderator-action record (prisma.moderatorAction.create). -/
structure ModeratorActionEntry where
  moderatorId : String
  reportId : Nat
  action : ModAction
  justification : Option String
  deriving DecidableEq, Repr

/-- A report subscription (counted as subscriberCount in priority scoring). -/
structure Subscription where
  reportId : Nat
  userId : String
  deriving DecidableEq, Repr

/-- The persistent store: the tables the admin routes touch. -/
structure Store where
  reports : List Report
  bids : List Bid
  assignments : List Assignment
  contractors : List Contractor
  proofs : List CompletionProof
  subscriptions : List Subscription
  history : List HistoryEntry
  adminLogs : List AdminLogEntry
  moderatorActions : List ModeratorActionEntry
  deriving DecidableEq, Repr

/-- The authenticated actor (req.user). -/
structure Actor where
  id : String
  role : String
  deriving DecidableEq, Repr

/-- HTTP-level failure outcomes of a route handler. -/
inductive ApiError
  | badRequest (msg : String)
  | notFound (msg : String)
  | serverError
  deriving DecidableEq, Repr

instance {ε α : Type} [DecidableEq ε] [DecidableEq α] :
    DecidableEq (Except ε α) := fun x y =>
  match x, y with
  | .ok a, .ok b => decidable_of_iff (a = b) (by simp)
  | .ok _, .error _ => isFalse (by simp)
  | .error _, .ok _ => isFalse (by simp)
  | .error e, .error f => decidable_of_iff (e = f) (by simp)

/-- Outcome of one route handler: the response result and the store after all
committed writes.  The store is returned even on failure because the handlers
commit their database writes sequentially, so a late failure can leave earlier
writes in place. -/
structure OpOutcome where
  result : Except ApiError Unit
  store : Store
  deriving DecidableEq, Repr

/-- Length of a string after removing leading and trailing whitespace,
modelling justification.trim().length. -/
def trimmedLength (s : String) : Nat :=
  ((s.data.dropWhile Char.isWhitespace).reverse.dropWhile
    Char.isWhitespace).length

/-- The justification gate used by the privileged admin routes:
`if (!justification || justification.trim().length < 10)` fails.
`none` models an absent (undefined/null) body field. -/
def justificationValid : Option String → Bool
  | none => false
  | some s => !(trimmedLength s < 10)

/-- prisma.report.findUnique({ where: { id } }). -/
def findReport (rs : List Report) (id : Nat) : Option Report :=
  rs.find? (fun r => decide (r.id = id))

/-- prisma.bid.findUnique({ where: { id } }). -/
def findBid (bs : List Bid) (id : Nat) : Option Bid :=
  bs.find? (fun b => decide (b.id = id))

/-- prisma.contractor.findUnique({ where: { id } }). -/
def findContractor (cs : List Contractor) (id : Nat) : Option Contractor :=
  cs.find? (fun c => decide (c.id = id))

/-- prisma.completionProof.findUnique({ where: { id } }). -/
def findProof (ps : List CompletionProof) (id : Nat) : Option CompletionProof :=
  ps.find? (fun p => decide (p.id = id))

/-- prisma.assignment lookup by id. -/
def findAssignment (as_ : List Assignment) (id : Nat) : Option Assignment :=
  as_.find? (fun a => decide (a.id = id))

/-- prisma.report.update({ where: { id }, data: f }). -/
def updateReportIn (rs : List Report) (id : Nat) (f : Report → Report) :
    List Report :=
  rs.map (fun r => if r.id = id then f r else r)

/-- prisma.bid.update({ where: { id }, data: f }). -/
def updateBidIn (bs : List Bid) (id : Nat) (f : Bid → Bid) : List Bid :=
  bs.map (fun b => if b.id = id then f b else b)

/-- prisma.assignment.update({ where: { id }, data: f }). -/
def updateAssignmentIn (as_ : List Assignment) (id : Nat)
    (f : Assignment → Assignment) : List Assignment :=
  as_.map (fun a => if a.id = id then f a else a)

/-- prisma.contractor.update({ where: { id }, data: f }). -/
def updateContractorIn (cs : List Contractor) (id : Nat)
    (f : Contractor → Contractor) : List Contractor :=
  cs.map (fun c => if c.id = id then f c else c)

/-- prisma.completionProof.update({ where: { id }, data: f }). -/
def updateProofIn (ps : List CompletionProof) (id : Nat)
    (f : CompletionProof → CompletionProof) : List CompletionProof :=
  ps.map (fun p => if p.id = id then f p else p)

/-- Count of subscriptions of a report (report._count.subscriptions). -/
def subscriberCount (s : Store) (rid : Nat) : Nat :=
  s.subscriptions.countP (fun x => decide (x.reportId = rid))

/-- The display priority score computed in GET /reports and GET /reports/:id:
(severity * 20) + (upvotes * 2) + (subscriptions * 5). -/
def priorityScore (severity : Int) (upvotes : Nat) (subscribers : Nat) : Int :=
  severity * 20 + (upvotes : Int) * 2 + (subscribers : Int) * 5

/-- The priority formula as the specification states it
(priority = severity*20 + upvotes*2 + subscriberCount*5), written from the
words of the spec for the refinement comparison with `priorityScore`. -/
def specPriorityFormula (severity : Int) (upvotes : Nat)
    (subscribers : Nat) : Int :=
  severity * 20 + (upvotes : Int) * 2 + (subscribers : Int) * 5

/-- GET /reports: every listed report is paired with its computed
priorityScore; nothing is written back to the store. -/
def reportsWithPriority (s : Store) : List (Report × Int) :=
  s.reports.map (fun r =>
    (r, priorityScore r.severity r.upvotes (subscriberCount s r.id)))

/-- GET /reports/:id: the metrics.priorityScore of the detail view. -/
def reportDetailPriority (s : Store) (id : Nat) : Option Int :=
  (findReport s.reports id).map (fun r =>
    priorityScore r.severity r.upvotes (subscriberCount s r.id))

/-- Insert one report into an already ordered list, keeping the order given by
the boolean comparison. -/
def insertByLE (le : Report → Report → Bool) (x : Report) :
    List Report → List Report
  | [] => [x]
  | y :: ys => if le x y then x :: y :: ys else y :: insertByLE le x ys

/-- Insertion sort by a boolean comparison, modelling the ordered read the
store performs for an orderBy clause. -/
def sortByLE (le : Report → Report → Bool) (xs : List Report) : List Report :=
  xs.foldr (insertByLE le) []

/-- The orderBy used by GET /reports when sortBy is priorityScore:
severity desc, then upvotes desc, then createdAt desc. -/
def priorityOrderLE (a b : Report) : Bool :=
  if a.severity = b.severity then
    if a.upvotes = b.upvotes then decide (b.createdAt ≤ a.createdAt)
    else decide (b.upvotes < a.upvotes)
  else decide (b.severity < a.severity)

/-- The report list returned by GET /reports with sortBy = priorityScore. -/
def adminListingPrioritySorted (s : Store) : List Report :=
  sortByLE priorityOrderLE s.reports

/-- Modelled from the spec: the Prisma schema (src/generated/prisma) that
declares the Report–Assignment relation is not part of src/.  The spec
describes an Assignment as the single binding commitment of a contractor to a
Report, and every route reads `report.assignment` as a singular optional
relation, so the store is modelled with a unique constraint on
Assignment.reportId: creating an assignment fails when the report already has
one.  This predicate is that constraint check. -/
def assignmentExistsFor (s : Store) (rid : Nat) : Bool :=
  s.assignments.any (fun a => decide (a.reportId = rid))

/-- PATCH /reports/:id/status: update report status with mandatory
justification.  Writes the new status, stamps closedAt when the target is
CLOSED, and appends one history entry and one audit-log entry. -/
def patchReportStatus (s : Store) (actor : Actor) (id : Nat)
    (status : ReportStatus) (justification : Option String) (now : Nat) :
    OpOutcome :=
  if justificationValid justification then
    match findReport s.reports id with
    | none => ⟨.error (.notFound "Report not found"), s⟩
    | some existingReport =>
      let reports1 := updateReportIn s.reports id (fun r =>
        { r with status := status, updatedAt := now,
                 closedAt := if status = .CLOSED then some now else r.closedAt })
      let hist : HistoryEntry :=
        { reportId := id, actorId := actor.id,
          action := "STATUS_CHANGED",
          oldStatus := some existingReport.status, newStatus := some status,
          justification := justification, isSystemGenerated := false }
      let log : AdminLogEntry :=
        { adminId := actor.id,
          adminRole := actor.role, entityType := "REPORT", entityId := id,
          actionType := "STATUS_CHANGED",
          justificationMessage := justification.getD "" }
      let s9 : Store :=
        { s with
          reports := reports1,
          history := s.history ++ [hist],
          adminLogs := s.adminLogs ++ [log] }
      ⟨.ok (), s9⟩
  else
    ⟨.error (.badRequest
      "Justification is required and must be at least 10 characters"), s⟩

/-- PATCH /reports/:id/assign: direct assignment to a contractor (or only a
department) with mandatory justification.  With a contractorId the report
update carries a nested assignment create, which fails atomically when the
report already has an assignment. -/
def patchReportAssign (s : Store) (actor : Actor) (id : Nat)
    (contractorId departmentId deadline : Option Nat)
    (justification : Option String) (now newAid : Nat) : OpOutcome :=
  if justificationValid justification then
    match findReport s.reports id with
    | none => ⟨.error (.notFound "Report not found"), s⟩
    | some report =>
      let newDept := match departmentId with
        | some d => some d
        | none => report.departmentId
      let hist : HistoryEntry :=
        { reportId := id, actorId := actor.id,
          action := "REPORT_ASSIGNED", oldStatus := some report.status,
          newStatus := some .ASSIGNED, justification := justification,
          isSystemGenerated := false }
      let log : AdminLogEntry :=
        { adminId := actor.id,
          adminRole := actor.role, entityType := "REPORT", entityId := id,
          actionType := "ASSIGNED",
          justificationMessage := justification.getD "" }
      match contractorId with
      | some cid =>
        match findContractor s.contractors cid with
        | none => ⟨.error (.notFound "Contractor not found"), s⟩
        | some _ =>
          if assignmentExistsFor s id then ⟨.error .serverError, s⟩
          else
            let newA : Assignment :=
              { id := newAid, reportId := id,
                contractorId := cid, assignedById := actor.id, bidId := none,
                agreedCost := none, deadlineAt := deadline, status := .ASSIGNED,
                completedAt := none, cancelledAt := none, cancelReason := none }
            let reports1 := updateReportIn s.reports id (fun r =>
              { r with status := .ASSIGNED, departmentId := newDept,
                       updatedAt := now })
            let s9 : Store :=
              { s with
                  reports := reports1,
                  assignments := s.assignments ++ [newA],
                  history := s.history ++ [hist],
                  adminLogs := s.adminLogs ++ [log] }
            ⟨.ok (), s9⟩
      | none =>
        let reports1 := updateReportIn s.reports id (fun r =>
          { r with status := .ASSIGNED, departmentId := newDept,
                   updatedAt := now })
        let s9 : Store :=
          { s with
              reports := reports1,
              history := s.history ++ [hist],
              adminLogs := s.adminLogs ++ [log] }
        ⟨.ok (), s9⟩
  else
    ⟨.error (.badRequest
      "Justification is required for assignment (min 10 characters)"), s⟩

/-- The validActions list of POST /reports/:id/moderate. -/
def postModerateValidActions : List ModAction :=
  [.FLAG_SPAM, .MARK_SENSITIVE, .HIDE, .APPROVE,
   .MARK_DUPLICATE, .ESCALATE, .REJECT, .UNFLAG]

/-- POST /reports/:id/moderate: comprehensive moderation with mandatory
justification.  Applies the requested flag updates, the MARK_DUPLICATE
status/reference update when a duplicateOfId is supplied, and an unvalidated
severity override; writes a moderator action, a history entry and an audit-log
entry. -/
def postReportModerate (s : Store) (actor : Actor) (id : Nat)
    (action : ModAction) (justification : Option String)
    (isSpam isSensitive : Option Bool) (duplicateOfId : Option Nat)
    (severity : Option Int) (now : Nat) : OpOutcome :=
  if action ∈ postModerateValidActions then
    if justificationValid justification then
      match findReport s.reports id with
      | none => ⟨.error (.notFound "Report not found"), s⟩
      | some _report =>
        let reports1 := updateReportIn s.reports id (fun r =>
          let r1 := { r with updatedAt := now }
          let r2 := match isSpam with
            | some b => { r1 with isSpam := b }
            | none => r1
          let r3 := match isSensitive with
            | some b => { r2 with isSensitive := b }
            | none => r2
          let r4 := if action = .MARK_DUPLICATE then
              match duplicateOfId with
              | some d =>
                { r3 with
                    status := .DUPLICATE,
                    duplicateOfId := some d,
                    isDuplicate := true }
              | none => r3
            else r3
          match severity with
          | some v => { r4 with severity := v }
          | none => r4)
        let modAct : ModeratorActionEntry :=
          { moderatorId := actor.id,
            reportId := id, action := action, justification := justification }
        let hist : HistoryEntry :=
          { reportId := id, actorId := actor.id,
            action := "MODERATED", oldStatus := none, newStatus := none,
            justification := justification, isSystemGenerated := false }
        let log : AdminLogEntry :=
          { adminId := actor.id,
            adminRole := actor.role, entityType := "REPORT", entityId := id,
            actionType := "APPROVED",
            justificationMessage := justification.getD "" }
        let s9 : Store :=
          { s with
              reports := reports1,
              moderatorActions := s.moderatorActions ++ [modAct],
              history := s.history ++ [hist],
              adminLogs := s.adminLogs ++ [log] }
        ⟨.ok (), s9⟩
    else
      ⟨.error (.badRequest
        "Justification is required for moderation (min 10 characters)"), s⟩
  else ⟨.error (.badRequest "Invalid moderation action"), s⟩

/-- The validActions list of PATCH /reports/:id/moderate. -/
def patchModerateValidActions : List ModAction :=
  [.FLAG_SPAM, .MARK_SENSITIVE, .HIDE, .APPROVE]

/-- PATCH /reports/:id/moderate: flag moderation (spam / sensitive).  Takes a
free-form reason and performs no justification length check. -/
def patchReportModerate (s : Store) (actor : Actor) (id : Nat)
    (action : ModAction) (reason : Option String)
    (isSpam isSensitive : Option Bool) (now : Nat) : OpOutcome :=
  if action ∈ patchModerateValidActions then
    match findReport s.reports id with
    | none => ⟨.error (.notFound "Report not found"), s⟩
    | some _report =>
      let reports1 := updateReportIn s.reports id (fun r =>
        let r1 := match isSpam with
          | some b => { r with isSpam := b }
          | none => r
        let r2 := match isSensitive with
          | some b => { r1 with isSensitive := b }
          | none => r1
        { r2 with updatedAt := now })
      let modAct : ModeratorActionEntry :=
        { moderatorId := actor.id,
          reportId := id, action := action, justification := reason }
      let hist : HistoryEntry :=
        { reportId := id, actorId := actor.id,
          action := "MODERATED", oldStatus := none, newStatus := none,
          justification := reason, isSystemGenerated := false }
      let s9 : Store :=
        { s with
            reports := reports1,
            moderatorActions := s.moderatorActions ++ [modAct],
            history := s.history ++ [hist] }
      ⟨.ok (), s9⟩
  else ⟨.error (.badRequest "Invalid moderation action"), s⟩

/-- PATCH /reports/:id/escalate: raise severity by one, capped at 5.  Takes a
free-form reason and performs no justification length check. -/
def patchReportEscalate (s : Store) (actor : Actor) (id : Nat)
    (reason : Option String) (now : Nat) : OpOutcome :=
  match findReport s.reports id with
  | none => ⟨.error (.notFound "Report not found"), s⟩
  | some report =>
    let reports1 := updateReportIn s.reports id (fun r =>
      { r with severity := min (report.severity + 1) 5, updatedAt := now })
    let hist : HistoryEntry :=
      { reportId := id, actorId := actor.id,
        action := "ESCALATED", oldStatus := none, newStatus := none,
        justification := reason, isSystemGenerated := false }
    let s9 : Store :=
      { s with
          reports := reports1,
          history := s.history ++ [hist] }
    ⟨.ok (), s9⟩

/-- POST /reports/:id/bid/assign: accept one bid with mandatory justification.
Sequentially: mark the chosen bid ACCEPTED (stamped), create the assignment
(agreed cost = proposed cost, deadline = explicit or now + estimatedDays),
set the report ASSIGNED, mark every other bid of the report REJECTED, then
append the history and audit entries.  The writes commit in that order, so a
failing assignment create leaves the accepted bid committed. -/
def postBidAssign (s : Store) (actor : Actor) (id bidId : Nat)
    (justification : Option String) (deadline : Option Nat)
    (now newAid : Nat) : OpOutcome :=
  if justificationValid justification then
    match findBid s.bids bidId with
    | none => ⟨.error (.notFound "Bid not found"), s⟩
    | some bid =>
      if bid.reportId ≠ id then
        ⟨.error (.badRequest "Bid does not belong to this report"), s⟩
      else
        let bids1 := updateBidIn s.bids bidId (fun b =>
          { b with status := .ACCEPTED, acceptedAt := some now,
                   acceptedBy := some actor.id })
        let s1 := { s with bids := bids1 }
        if assignmentExistsFor s1 id then ⟨.error .serverError, s1⟩
        else
          let newA : Assignment :=
            { id := newAid, reportId := id,
              contractorId := bid.contractorId, assignedById := actor.id,
              bidId := some bidId, agreedCost := some bid.proposedCost,
              deadlineAt := some (match deadline with
              | some d => d
              | none => now + bid.estimatedDays * (24 * 60 * 60 * 1000)),
              status := .ASSIGNED, completedAt := none, cancelledAt := none,
              cancelReason := none }
          let reports1 := updateReportIn s1.reports id (fun r =>
            { r with status := .ASSIGNED, updatedAt := now })
          let bids2 := s1.bids.map (fun b =>
            if b.reportId = id ∧ b.id ≠ bidId then
              { b with status := .REJECTED, rejectedAt := some now }
            else b)
          let hist : HistoryEntry :=
            { reportId := id, actorId := actor.id,
              action := "BID_ASSIGNED",
              oldStatus := (findReport s.reports id).map Report.status,
              newStatus := some .ASSIGNED, justification := justification,
              isSystemGenerated := false }
          let log : AdminLogEntry :=
            { adminId := actor.id,
              adminRole := actor.role, entityType := "BID", entityId := bidId,
              actionType := "ASSIGNED",
              justificationMessage := justification.getD "" }
          let s9 : Store :=
            { s1 with
                reports := reports1, bids := bids2,
                assignments := s1.assignments ++ [newA],
                history := s1.history ++ [hist],
                adminLogs := s1.adminLogs ++ [log] }
          ⟨.ok (), s9⟩
  else
    ⟨.error (.badRequest
      "Justification is required for bid assignment (min 10 characters)"), s⟩

/-- PATCH /contractors/:id/block: block or unblock a contractor with mandatory
justification.  Blocking cancels every ASSIGNED or IN_PROGRESS assignment of
the contractor with a system-supplied reason and writes one audit-log entry
with entity type CONTRACTOR and action type BLOCKED (UNBLOCKED when
unblocking). -/
def patchContractorBlock (s : Store) (actor : Actor) (id : Nat)
    (isBlocked : Bool) (justification : Option String) (now : Nat) :
    OpOutcome :=
  if justificationValid justification then
    match findContractor s.contractors id with
    | none => ⟨.error (.notFound "Contractor not found"), s⟩
    | some _contractor =>
      let contractors1 := updateContractorIn s.contractors id (fun c =>
        { c with isBlocked := isBlocked,
                 blockReason := if isBlocked then justification else none,
                 blockedAt := if isBlocked then some now else none,
                 blockedBy := if isBlocked then some actor.id else none,
                 updatedAt := now })
      let assignments1 := if isBlocked then
          s.assignments.map (fun a =>
            if a.contractorId = id ∧
                (a.status = .ASSIGNED ∨ a.status = .IN_PROGRESS) then
              { a with status := .CANCELLED, cancelledAt := some now,
                       cancelReason := some "Contractor blocked by admin" }
            else a)
        else s.assignments
      let log : AdminLogEntry :=
        { adminId := actor.id,
          adminRole := actor.role, entityType := "CONTRACTOR",
          entityId := id,
          actionType := if isBlocked then "BLOCKED" else "UNBLOCKED",
          justificationMessage := justification.getD "" }
      let s9 : Store :=
        { s with
            contractors := contractors1,
            assignments := assignments1,
            adminLogs := s.adminLogs ++ [log] }
      ⟨.ok (), s9⟩
  else
    ⟨.error (.badRequest
      "Justification is required for contractor blocking/unblocking (min 10 characters)"),
      s⟩

/-- PATCH /proofs/:id/approve: review a completion proof with mandatory
justification.  The proof row is updated first; on approval the assignment is
completed and the report set COMPLETED with completedAt stamped, on rejection
nothing besides the proof and the log trail changes. -/
def patchProofApprove (s : Store) (actor : Actor) (id : Nat)
    (isApproved : Bool) (justification : Option String) (now : Nat) :
    OpOutcome :=
  if justificationValid justification then
    match findProof s.proofs id with
    | none => ⟨.error (.notFound "Proof not found"), s⟩
    | some proof =>
      let proofs1 := updateProofIn s.proofs id (fun p =>
        { p with status := if isApproved then .APPROVED else .REJECTED,
                 reviewedAt := some now, reviewedBy := some actor.id,
                 reviewNotes := justification })
      let s1 := { s with proofs := proofs1 }
      match findAssignment s.assignments proof.assignmentId with
      | none => ⟨.error .serverError, s1⟩
      | some assignment =>
        let hist : HistoryEntry :=
          { reportId := assignment.reportId,
            actorId := actor.id,
            action := if isApproved then "PROOF_APPROVED" else "PROOF_REJECTED",
            oldStatus := none, newStatus := none,
            justification := justification, isSystemGenerated := false }
        let log : AdminLogEntry :=
          { adminId := actor.id,
            adminRole := actor.role, entityType := "PROOF", entityId := id,
            actionType := if isApproved then "APPROVED" else "REJECTED",
            justificationMessage := justification.getD "" }
        if isApproved then
          let assignments1 := updateAssignmentIn s1.assignments
            proof.assignmentId (fun a =>
              { a with status := .COMPLETED, completedAt := some now })
          let reports1 := updateReportIn s1.reports assignment.reportId
            (fun r => { r with status := .COMPLETED, completedAt := some now,
                               updatedAt := now })
          let s9 : Store :=
            { s1 with
                assignments := assignments1, reports := reports1,
                history := s1.history ++ [hist],
                adminLogs := s1.adminLogs ++ [log] }
          ⟨.ok (), s9⟩
        else
          let s9 : Store :=
            { s1 with
                history := s1.history ++ [hist],
                adminLogs := s1.adminLogs ++ [log] }
          ⟨.ok (), s9⟩
  else
    ⟨.error (.badRequest
      "Justification is required for proof approval/rejection (min 10 characters)"),
      s⟩

/-- An assignment is active when it is neither CANCELLED nor COMPLETED. -/
def Assignment.isActive (a : Assignment) : Bool :=
  !(a.status = AssignmentStatus.CANCELLED ∨
    a.status = AssignmentStatus.COMPLETED)

/-- Number of active assignments referencing a report. -/
def activeAssignmentCount (s : Store) (rid : Nat) : Nat :=
  s.assignments.countP (fun a => decide (a.reportId = rid) && a.isActive)

/-- The spec invariant: at most one active assignment per report. -/
def atMostOneActivePerReport (s : Store) : Prop :=
  ∀ rid, activeAssignmentCount s rid ≤ 1

/-- Ordering of reports by descending priority score, the comparison the spec
formula would induce, for contrast with priorityOrderLE. -/
def scoreOrderLE (s : Store) (a b : Report) : Bool :=
  decide (priorityScore b.severity b.upvotes (subscriberCount s b.id) ≤
          priorityScore a.severity a.upvotes (subscriberCount s a.id))

/-- Sample actor used in the concrete scenarios. -/
def sampleAdmin : Actor := { id := "admin-1", role := "ADMIN" }

/-- A baseline open report. -/
def baseReport : Report :=
  { id := 1, status := .OPEN, severity := 3, upvotes := 4, isSpam := false,
    isSensitive := false, isDuplicate := false, duplicateOfId := none,
    departmentId := none, closedAt := none, completedAt := none,
    createdAt := 0, updatedAt := 0 }

/-- The empty store. -/
def emptyStore : Store :=
  { reports := [], bids := [], assignments := [], contractors := [],
    proofs := [], subscriptions := [], history := [], adminLogs := [],
    moderatorActions := [] }

/-- A store holding just the baseline report. -/
def store1 : Store := { emptyStore with reports := [baseReport] }

/-- High severity, no engagement: priority score 5*20 = 100. -/
def reportHighSeverity : Report :=
  { baseReport with id := 1, severity := 5, upvotes := 0 }

/-- Lower severity, heavy engagement: priority score 4*20+20*2+10*5 = 170. -/
def reportHighEngagement : Report :=
  { baseReport with id := 2, severity := 4, upvotes := 20 }

/-- Ten subscriptions for report 2. -/
def sortSubscriptions : List Subscription :=
  (List.range 10).map (fun i => { reportId := 2, userId := toString i })

/-- Store exhibiting the difference between the listing order and the
priority-score order. -/
def storeSort : Store :=
  { emptyStore with
      reports := [reportHighEngagement, reportHighSeverity],
      subscriptions := sortSubscriptions }

/-- C9: the priority score computed on listing and detail reads is
severity*20 + upvotes*2 + subscriberCount*5, matching the spec formula; the
reads return the stored reports unchanged (nothing persisted); and a report
with severity 4, 3 upvotes and 2 subscribers scores 96. -/
theorem priority_score_formula :
    (∀ (severity : Int) (upvotes subs : Nat),
        priorityScore severity upvotes subs =
          specPriorityFormula severity upvotes subs) ∧
    (∀ s : Store, (reportsWithPriority s).map Prod.fst = s.reports) ∧
    (∀ s : Store, ∀ pr ∈ reportsWithPriority s,
        pr.2 = pr.1.severity * 20 + (pr.1.upvotes : Int) * 2 +
          (subscriberCount s pr.1.id : Int) * 5) ∧
    (∀ (s : Store) (id : Nat) (p : Int), reportDetailPriority s id = some p →
        ∃ r, findReport s.reports id = some r ∧
          p = r.severity * 20 + (r.upvotes : Int) * 2 +
            (subscriberCount s r.id : Int) * 5) ∧
    priorityScore 4 3 2 = 96 := by
  refine ⟨fun _ _ _ => rfl, fun s => ?_, fun s pr hpr => ?_, fun s id p hp => ?_, by decide⟩
  · simp only [reportsWithPriority, List.map_map]
    exact List.map_id'' (fun _ => rfl) s.reports
  · simp only [reportsWithPriority, List.mem_map] at hpr
    obtain ⟨r, _, rfl⟩ := hpr
    rfl
  · simp only [reportDetailPriority, Option.map_eq_some'] at hp
    obtain ⟨r, hr, rfl⟩ := hp
    exact ⟨r, hr, rfl⟩

/-- Witness for priority_score_formula at concrete inputs. -/
theorem priority_score_formula_witness :
    (reportsWithPriority storeSort).map Prod.fst = storeSort.reports ∧
    priorityScore 4 3 2 = 96 ∧
    (∃ r, findReport storeSort.reports 2 = some r ∧
      (170 : Int) = r.severity * 20 + (r.upvotes : Int) * 2 +
        (subscriberCount storeSort r.id : Int) * 5) :=
  ⟨priority_score_formula.2.1 storeSort,
   priority_score_formula.2.2.2.2,
   priority_score_formula.2.2.2.1 storeSort 2 170 (by decide)⟩

/-- C10: with sortBy = priorityScore the admin listing orders reports by
severity desc, upvotes desc, createdAt desc rather than by the priority score
formula: the severity-5 report with score 100 is listed before the severity-4
report with score 170, while sorting by descending score returns the opposite
order. -/
theorem priority_sort_order_differs_from_score :
    (adminListingPrioritySorted storeSort).map Report.id = [1, 2] ∧
    (sortByLE (scoreOrderLE storeSort) storeSort.reports).map Report.id =
      [2, 1] ∧
    reportDetailPriority storeSort 1 = some 100 ∧
    reportDetailPriority storeSort 2 = some 170 ∧
    (adminListingPrioritySorted storeSort).map Report.id ≠
      (sortByLE (scoreOrderLE storeSort) storeSort.reports).map Report.id := by
  refine ⟨by decide, by decide, by decide, by decide, by decide⟩

/-- Every ModAction passes the POST moderation validActions check. -/
theorem mem_postModerateValidActions (act : ModAction) :
    act ∈ postModerateValidActions := by
  cases act <;> simp [postModerateValidActions]

/-- C1 counterexample: the escalate path and the PATCH flag-moderation path
enforce no justification gate.  With the justification absent both succeed and
mutate the target report (severity raised to 4, isSpam set), contradicting the
claim that every status-affecting privileged operation, including the escalate
and flag-moderation paths, fails without a 10-character justification. -/
theorem escalate_and_flag_moderation_skip_gate :
    (patchReportEscalate store1 sampleAdmin 1 none 5).result = .ok () ∧
    (findReport (patchReportEscalate store1 sampleAdmin 1 none 5).store.reports
      1).map Report.severity = some 4 ∧
    (patchReportModerate store1 sampleAdmin 1 .FLAG_SPAM none (some true) none
      5).result = .ok () ∧
    (findReport (patchReportModerate store1 sampleAdmin 1 .FLAG_SPAM none
      (some true) none 5).store.reports 1).map Report.isSpam = some true := by
  decide

/-- C1 (amended): the 10-trimmed-character justification gate is enforced,
with a validation error and an unchanged store, on status change, direct
assignment, POST moderation, bid acceptance, contractor block/unblock and
proof review, and with a valid justification none of these operations fails
with its justification error; the PATCH escalate path and the PATCH
flag-moderation path, however, perform no justification check and succeed with
an absent reason whenever the report exists. -/
theorem justification_gate_amended
    (s : Store) (actor : Actor) (id bidId newAid : Nat) (st : ReportStatus)
    (contractorId departmentId deadline : Option Nat) (act : ModAction)
    (flagSpam flagSensitive : Option Bool) (dupId : Option Nat)
    (sev : Option Int) (blocked approved : Bool) (j : Option String)
    (now : Nat) (r : Report) :
    (justificationValid j = false →
      patchReportStatus s actor id st j now =
        ⟨.error (.badRequest "Justification is required and must be at least 10 characters"), s⟩ ∧
      patchReportAssign s actor id contractorId departmentId deadline j now newAid =
        ⟨.error (.badRequest "Justification is required for assignment (min 10 characters)"), s⟩ ∧
      postReportModerate s actor id act j flagSpam flagSensitive dupId sev now =
        ⟨.error (.badRequest "Justification is required for moderation (min 10 characters)"), s⟩ ∧
      postBidAssign s actor id bidId j deadline now newAid =
        ⟨.error (.badRequest "Justification is required for bid assignment (min 10 characters)"), s⟩ ∧
      patchContractorBlock s actor id blocked j now =
        ⟨.error (.badRequest "Justification is required for contractor blocking/unblocking (min 10 characters)"), s⟩ ∧
      patchProofApprove s actor id approved j now =
        ⟨.error (.badRequest "Justification is required for proof approval/rejection (min 10 characters)"), s⟩) ∧
    (justificationValid j = true →
      (patchReportStatus s actor id st j now).result ≠
        .error (.badRequest "Justification is required and must be at least 10 characters") ∧
      (patchReportAssign s actor id contractorId departmentId deadline j now newAid).result ≠
        .error (.badRequest "Justification is required for assignment (min 10 characters)") ∧
      (postReportModerate s actor id act j flagSpam flagSensitive dupId sev now).result ≠
        .error (.badRequest "Justification is required for moderation (min 10 characters)") ∧
      (postBidAssign s actor id bidId j deadline now newAid).result ≠
        .error (.badRequest "Justification is required for bid assignment (min 10 characters)") ∧
      (patchContractorBlock s actor id blocked j now).result ≠
        .error (.badRequest "Justification is required for contractor blocking/unblocking (min 10 characters)") ∧
      (patchProofApprove s actor id approved j now).result ≠
        .error (.badRequest "Justification is required for proof approval/rejection (min 10 characters)")) ∧
    (findReport s.reports id = some r →
      (patchReportEscalate s actor id none now).result = .ok () ∧
      (act ∈ patchModerateValidActions →
        (patchReportModerate s actor id act none flagSpam flagSensitive
          now).result = .ok ())) := by
  refine ⟨fun hj => ?_, fun hj => ?_, fun hfr => ?_⟩
  · refine ⟨?_, ?_, ?_, ?_, ?_, ?_⟩ <;>
      simp [patchReportStatus, patchReportAssign, postReportModerate,
        postBidAssign, patchContractorBlock, patchProofApprove, hj,
        mem_postModerateValidActions]
  · refine ⟨?_, ?_, ?_, ?_, ?_, ?_⟩
    · simp only [patchReportStatus, hj, if_true]
      cases hfr : findReport s.reports id <;> simp
    · simp only [patchReportAssign, hj, if_true]
      cases hfr : findReport s.reports id
      · simp
      · cases contractorId with
        | none => simp
        | some cid =>
          cases hfc : findContractor s.contractors cid
          · simp [hfc]
          · by_cases hex : assignmentExistsFor s id <;> simp [hfc, hex]
    · simp only [postReportModerate, hj, if_true,
        mem_postModerateValidActions, if_pos]
      cases hfr : findReport s.reports id <;> simp
    · simp only [postBidAssign, hj, if_true]
      cases hfb : findBid s.bids bidId
      · simp
      · rename_i b
        by_cases hbel : b.reportId ≠ id
        · simp only [if_pos hbel]
          intro hcontra
          simp at hcontra
        · simp only [if_neg hbel]
          by_cases hex : assignmentExistsFor { s with bids := updateBidIn s.bids bidId (fun b => { b with status := .ACCEPTED, acceptedAt := some now, acceptedBy := some actor.id }) } id <;>
            simp [hex]
    · simp only [patchContractorBlock, hj, if_true]
      cases hfc : findContractor s.contractors id <;> simp
    · simp only [patchProofApprove, hj, if_true]
      cases hfp : findProof s.proofs id
      · simp
      · rename_i p
        cases hfa : findAssignment s.assignments p.assignmentId
        · simp [hfa]
        · cases approved <;> simp [hfa]
  · constructor
    · simp [patchReportEscalate, hfr]
    · intro hmem
      simp [patchReportModerate, hfr, if_pos hmem]

/-- Witness for justification_gate_amended: a 9-character justification fails
the status route with the store unchanged, a long one passes the gate, and
the ungated escalate path succeeds on the concrete store. -/
theorem justification_gate_amended_witness :
    patchReportStatus store1 sampleAdmin 1 .VALIDATED (some "too short") 5 =
      ⟨.error (.badRequest "Justification is required and must be at least 10 characters"), store1⟩ ∧
    (patchReportStatus store1 sampleAdmin 1 .VALIDATED
        (some "a proper justification") 5).result ≠
      .error (.badRequest "Justification is required and must be at least 10 characters") ∧
    (patchReportEscalate store1 sampleAdmin 1 none 5).result = .ok () := by
  refine ⟨?_, ?_, ?_⟩
  · exact ((justification_gate_amended store1 sampleAdmin 1 0 0 .VALIDATED
      none none none .FLAG_SPAM none none none none false false
      (some "too short") 5 baseReport).1 (by decide)).1
  · exact ((justification_gate_amended store1 sampleAdmin 1 0 0 .VALIDATED
      none none none .FLAG_SPAM none none none none false false
      (some "a proper justification") 5 baseReport).2.1 (by decide)).1
  · exact ((justification_gate_amended store1 sampleAdmin 1 0 0 .VALIDATED
      none none none .FLAG_SPAM none none none none false false
      (some "a proper justification") 5 baseReport).2.2 (by decide)).1

/-- C4 counterexample: the moderate route applies a supplied severity with no
range validation: moderating the concrete report with severity 6 succeeds and
stores severity 6, outside [1,5]. -/
theorem moderate_severity_unvalidated :
    (postReportModerate store1 sampleAdmin 1 .APPROVE
      (some "a proper justification") none none none (some 6) 5).result =
      .ok () ∧
    (findReport (postReportModerate store1 sampleAdmin 1 .APPROVE
      (some "a proper justification") none none none (some 6)
      5).store.reports 1).map Report.severity = some 6 := by decide

/-- C4 (amended): the escalate operation sets the report severity to
min(old + 1, 5), so the result stays within [1,5] whenever the old severity
was; the moderate operation's severity update, by contrast, applies the
supplied value unvalidated and can leave [1,5]. -/
theorem escalate_severity_cap_amended
    (s : Store) (actor : Actor) (id : Nat) (reason : Option String)
    (now : Nat) (r : Report)
    (hfr : findReport s.reports id = some r) :
    (patchReportEscalate s actor id reason now).result = .ok () ∧
    (∀ r2 ∈ (patchReportEscalate s actor id reason now).store.reports,
      r2.id = id → r2.severity = min (r.severity + 1) 5 ∧
        (1 ≤ r.severity → r.severity ≤ 5 →
          1 ≤ r2.severity ∧ r2.severity ≤ 5)) := by
  constructor
  · simp [patchReportEscalate, hfr]
  · intro r2 hr2 hid
    simp only [patchReportEscalate, hfr, updateReportIn, List.mem_map] at hr2
    obtain ⟨r0, _, rfl⟩ := hr2
    by_cases h : r0.id = id
    · rw [if_pos h]
      exact ⟨rfl, fun h1 _h5 => ⟨le_min (by omega) (by omega),
        min_le_right _ _⟩⟩
    · rw [if_neg h] at hid
      exact absurd hid h

/-- Witness for escalate_severity_cap_amended: escalating the severity-3
report succeeds and leaves the escalated row, with severity 4 in range, in
the store. -/
theorem escalate_severity_cap_amended_witness :
    (patchReportEscalate store1 sampleAdmin 1 none 5).result = .ok () ∧
    (1 ≤ ({ baseReport with severity := 4, updatedAt := 5 } : Report).severity ∧
      ({ baseReport with severity := 4, updatedAt := 5 } : Report).severity ≤ 5) := by
  refine ⟨(escalate_severity_cap_amended store1 sampleAdmin 1 none 5
      baseReport (by decide)).1, ?_⟩
  exact ((escalate_severity_cap_amended store1 sampleAdmin 1 none 5
      baseReport (by decide)).2
    { baseReport with severity := 4, updatedAt := 5 }
    (by decide) (by decide)).2 (by decide) (by decide)

/-- C5 counterexample: MARK_DUPLICATE accepts a self-referencing
duplicateOfId: moderating report 1 as a duplicate of itself succeeds, sets
status DUPLICATE and stores duplicateOfId = 1, the report's own id; no
duplicate counter exists to increment. -/
theorem mark_duplicate_self_reference :
    (postReportModerate store1 sampleAdmin 1 .MARK_DUPLICATE
      (some "a proper justification") none none (some 1) none 5).result =
      .ok () ∧
    (findReport (postReportModerate store1 sampleAdmin 1 .MARK_DUPLICATE
      (some "a proper justification") none none (some 1) none
      5).store.reports 1).map Report.status = some .DUPLICATE ∧
    (findReport (postReportModerate store1 sampleAdmin 1 .MARK_DUPLICATE
      (some "a proper justification") none none (some 1) none
      5).store.reports 1).map Report.duplicateOfId = some (some 1) := by
  decide

/-- C5 (amended): MARK_DUPLICATE with any supplied duplicateOfId — with no
existence, distinctness or self-reference validation — sets the target
report's status to DUPLICATE, its duplicateOfId to the given id and
isDuplicate true, touching no other field but updatedAt; every other report
is returned unchanged (in particular no duplicate counter on the canonical
report is incremented); with duplicateOfId absent the call still succeeds and
leaves the target's status and duplicate fields unchanged. -/
theorem mark_duplicate_behavior_amended
    (s : Store) (actor : Actor) (id : Nat) (j : Option String)
    (dup : Option Nat) (now : Nat) (r : Report)
    (hj : justificationValid j = true)
    (hfr : findReport s.reports id = some r) :
    (postReportModerate s actor id .MARK_DUPLICATE j none none dup none
      now).result = .ok () ∧
    (∀ r2 ∈ (postReportModerate s actor id .MARK_DUPLICATE j none none dup
        none now).store.reports, r2.id ≠ id → r2 ∈ s.reports) ∧
    (∀ r0 ∈ s.reports, r0.id = id → ∀ d, dup = some d →
      ({ r0 with
          status := .DUPLICATE,
          duplicateOfId := some d,
          isDuplicate := true,
          updatedAt := now } : Report) ∈
        (postReportModerate s actor id .MARK_DUPLICATE j none none dup none
          now).store.reports) ∧
    (∀ r0 ∈ s.reports, r0.id = id → dup = none →
      ({ r0 with updatedAt := now } : Report) ∈
        (postReportModerate s actor id .MARK_DUPLICATE j none none dup none
          now).store.reports) := by
  refine ⟨by simp [postReportModerate, mem_postModerateValidActions, hj, hfr],
    fun r2 hr2 hne => ?_, fun r0 hr0 hid d hd => ?_, fun r0 hr0 hid hd => ?_⟩
  · simp only [postReportModerate, mem_postModerateValidActions, hj, hfr,
      updateReportIn, List.mem_map, if_true] at hr2
    obtain ⟨r0, hr0, rfl⟩ := hr2
    by_cases h : r0.id = id
    · exfalso
      rw [if_pos h] at hne
      cases hd : dup with
      | some d => rw [hd] at hne; exact hne h
      | none => rw [hd] at hne; exact hne h
    · rw [if_neg h]
      exact hr0
  · subst hd
    simp only [postReportModerate, mem_postModerateValidActions, hj, hfr,
      updateReportIn, if_true]
    refine List.mem_map.2 ⟨r0, hr0, ?_⟩
    simp [hid]
  · subst hd
    simp only [postReportModerate, mem_postModerateValidActions, hj, hfr,
      updateReportIn, if_true]
    refine List.mem_map.2 ⟨r0, hr0, ?_⟩
    simp [hid]

/-- Witness for mark_duplicate_behavior_amended: marking report 1 a duplicate
of report 2 succeeds and stores the DUPLICATE row. -/
theorem mark_duplicate_behavior_amended_witness :
    (postReportModerate store1 sampleAdmin 1 .MARK_DUPLICATE
      (some "a proper justification") none none (some 2) none 5).result =
      .ok () ∧
    ({ baseReport with
        status := .DUPLICATE,
        duplicateOfId := some 2,
        isDuplicate := true,
        updatedAt := 5 } : Report) ∈
      (postReportModerate store1 sampleAdmin 1 .MARK_DUPLICATE
        (some "a proper justification") none none (some 2) none
        5).store.reports := by
  refine ⟨(mark_duplicate_behavior_amended store1 sampleAdmin 1
      (some "a proper justification") (some 2) 5 baseReport (by decide)
      (by decide)).1, ?_⟩
  exact (mark_duplicate_behavior_amended store1 sampleAdmin 1
      (some "a proper justification") (some 2) 5 baseReport (by decide)
      (by decide)).2.2.1 baseReport (by decide) (by decide) 2 rfl

/-- A store whose report 1 is already CLOSED with closedAt stamped at 5. -/
def storeClosed : Store :=
  { emptyStore with
      reports := [{ baseReport with status := .CLOSED, closedAt := some 5 }] }

/-- C6 counterexample: a second transition into CLOSED at time 9 overwrites
closedAt from 5 to 9, so closedAt is not write-once; and a direct status
change into COMPLETED leaves completedAt unset, so completedAt is not stamped
at that transition. -/
theorem closed_timestamp_overwritten :
    (findReport (patchReportStatus storeClosed sampleAdmin 1 .CLOSED
      (some "a proper justification") 9).store.reports 1).map Report.closedAt =
      some (some 9) ∧
    (findReport (patchReportStatus store1 sampleAdmin 1 .COMPLETED
      (some "a proper justification") 9).store.reports 1).map
      Report.completedAt = some none := by decide

/-- C6 (amended): a successful status change stamps closedAt to the current
time exactly when the target is CLOSED — overwriting any previously stored
value on a repeated transition — and leaves closedAt unchanged otherwise; a
status change never writes completedAt, not even when the target is
COMPLETED; completedAt is stamped (likewise overwritten on re-approval) only
by completion-proof approval. -/
theorem closure_timestamps_amended
    (s : Store) (actor : Actor) (id : Nat) (st : ReportStatus)
    (j : Option String) (now : Nat) (r : Report)
    (hj : justificationValid j = true)
    (hfr : findReport s.reports id = some r) :
    (∀ r0 ∈ s.reports, r0.id = id →
      ({ r0 with
          status := st,
          updatedAt := now,
          closedAt := if st = .CLOSED then some now else r0.closedAt } :
        Report) ∈ (patchReportStatus s actor id st j now).store.reports) ∧
    (∀ r0 ∈ s.reports, r0.id ≠ id →
      r0 ∈ (patchReportStatus s actor id st j now).store.reports) ∧
    (∀ (pid : Nat) (p : CompletionProof) (a : Assignment),
      findProof s.proofs pid = some p →
      findAssignment s.assignments p.assignmentId = some a →
      ∀ r2 ∈ (patchProofApprove s actor pid true j now).store.reports,
        r2.id = a.reportId →
          r2.status = .COMPLETED ∧ r2.completedAt = some now) := by
  refine ⟨fun r0 hr0 hid => ?_, fun r0 hr0 hid => ?_,
    fun pid p a hfp hfa r2 hr2 hid => ?_⟩
  · simp only [patchReportStatus, hj, hfr, if_true, updateReportIn]
    exact List.mem_map.2 ⟨r0, hr0, by rw [if_pos hid]⟩
  · simp only [patchReportStatus, hj, hfr, if_true, updateReportIn]
    exact List.mem_map.2 ⟨r0, hr0, by rw [if_neg hid]⟩
  · simp only [patchProofApprove, hj, hfp, hfa, if_true, updateReportIn,
      List.mem_map] at hr2
    obtain ⟨r0, _, rfl⟩ := hr2
    by_cases h : r0.id = a.reportId
    · rw [if_pos h]
      exact ⟨rfl, rfl⟩
    · rw [if_neg h] at hid
      exact absurd hid h

/-- Witness for closure_timestamps_amended: re-closing the already closed
report leaves the row with closedAt overwritten to 9 in the store. -/
theorem closure_timestamps_amended_witness :
    ({ baseReport with
        status := .CLOSED,
        closedAt := some 9,
        updatedAt := 9 } : Report) ∈
      (patchReportStatus storeClosed sampleAdmin 1 .CLOSED
        (some "a proper justification") 9).store.reports := by
  have h := (closure_timestamps_amended storeClosed sampleAdmin 1 .CLOSED
      (some "a proper justification") 9
      { baseReport with status := .CLOSED, closedAt := some 5 }
      (by decide) (by decide)).1
      { baseReport with status := .CLOSED, closedAt := some 5 }
      (by decide) (by decide)
  simpa using h

/-- A contractor used in the blocking and proof-review scenarios. -/
def sampleContractor : Contractor :=
  { id := 100, isBlocked := false, blockReason := none, blockedAt := none,
    blockedBy := none, updatedAt := 0 }

/-- An IN_PROGRESS assignment of contractor 100 on report 2. -/
def activeAssignment : Assignment :=
  { id := 21, reportId := 2, contractorId := 100, assignedById := "admin-1",
    bidId := none, agreedCost := none, deadlineAt := none,
    status := .IN_PROGRESS, completedAt := none, cancelledAt := none,
    cancelReason := none }

/-- A COMPLETED assignment of contractor 100 on report 3. -/
def doneAssignment : Assignment :=
  { activeAssignment with id := 22, reportId := 3, status := .COMPLETED }

/-- An ASSIGNED assignment of a different contractor on report 4. -/
def foreignAssignment : Assignment :=
  { activeAssignment with
      id := 23,
      reportId := 4,
      contractorId := 200,
      status := .ASSIGNED }

/-- Store for the contractor-blocking scenario. -/
def storeBlock : Store :=
  { emptyStore with
      contractors := [sampleContractor],
      assignments := [activeAssignment, doneAssignment, foreignAssignment] }

/-- A pending completion proof for assignment 21 (report 2). -/
def pendingProof : CompletionProof :=
  { id := 50, assignmentId := 21, status := .PENDING, reviewedAt := none,
    reviewedBy := none, reviewNotes := none }

/-- Store for the proof-review scenario. -/
def storeProof : Store :=
  { emptyStore with
      reports := [{ baseReport with id := 2, status := .IN_PROGRESS }],
      assignments := [activeAssignment],
      proofs := [pendingProof] }

/-- C7: reviewing a completion proof: on approve the proof becomes APPROVED,
its assignment COMPLETED with a completion timestamp, and the report COMPLETED
with completedAt stamped; on reject the proof becomes REJECTED and the reports
and assignments tables are returned unchanged. -/
theorem proof_review_effects
    (s : Store) (actor : Actor) (pid : Nat) (j : Option String) (now : Nat)
    (p : CompletionProof) (a : Assignment)
    (hj : justificationValid j = true)
    (hfp : findProof s.proofs pid = some p)
    (hfa : findAssignment s.assignments p.assignmentId = some a) :
    ((patchProofApprove s actor pid true j now).result = .ok () ∧
     (∀ p2 ∈ (patchProofApprove s actor pid true j now).store.proofs,
        p2.id = pid → p2.status = .APPROVED) ∧
     (∀ a2 ∈ (patchProofApprove s actor pid true j now).store.assignments,
        a2.id = p.assignmentId →
          a2.status = .COMPLETED ∧ a2.completedAt = some now) ∧
     (∀ r2 ∈ (patchProofApprove s actor pid true j now).store.reports,
        r2.id = a.reportId →
          r2.status = .COMPLETED ∧ r2.completedAt = some now)) ∧
    ((patchProofApprove s actor pid false j now).result = .ok () ∧
     (∀ p2 ∈ (patchProofApprove s actor pid false j now).store.proofs,
        p2.id = pid → p2.status = .REJECTED) ∧
     (patchProofApprove s actor pid false j now).store.reports = s.reports ∧
     (patchProofApprove s actor pid false j now).store.assignments =
       s.assignments) := by
  refine ⟨⟨by simp [patchProofApprove, hj, hfp, hfa],
      fun p2 hp2 hid => ?_, fun a2 ha2 hid => ?_, fun r2 hr2 hid => ?_⟩,
    ⟨by simp [patchProofApprove, hj, hfp, hfa],
      fun p2 hp2 hid => ?_, by simp [patchProofApprove, hj, hfp, hfa],
      by simp [patchProofApprove, hj, hfp, hfa]⟩⟩
  · simp only [patchProofApprove, hj, hfp, hfa, if_true, updateProofIn,
      List.mem_map] at hp2
    obtain ⟨p0, _, rfl⟩ := hp2
    by_cases h : p0.id = pid
    · rw [if_pos h]
    · rw [if_neg h] at hid
      exact absurd hid h
  · simp only [patchProofApprove, hj, hfp, hfa, if_true, updateAssignmentIn,
      List.mem_map] at ha2
    obtain ⟨a0, _, rfl⟩ := ha2
    by_cases h : a0.id = p.assignmentId
    · rw [if_pos h]
      exact ⟨rfl, rfl⟩
    · rw [if_neg h] at hid
      exact absurd hid h
  · simp only [patchProofApprove, hj, hfp, hfa, if_true, updateReportIn,
      List.mem_map] at hr2
    obtain ⟨r0, _, rfl⟩ := hr2
    by_cases h : r0.id = a.reportId
    · rw [if_pos h]
      exact ⟨rfl, rfl⟩
    · rw [if_neg h] at hid
      exact absurd hid h
  · simp only [patchProofApprove, hj, hfp, hfa, if_true, Bool.false_eq_true,
      if_false, updateProofIn, List.mem_map] at hp2
    obtain ⟨p0, _, rfl⟩ := hp2
    by_cases h : p0.id = pid
    · rw [if_pos h]
    · rw [if_neg h] at hid
      exact absurd hid h

/-- Witness for proof_review_effects: approving the pending proof succeeds,
and rejecting it leaves the reports table unchanged. -/
theorem proof_review_effects_witness :
    (patchProofApprove storeProof sampleAdmin 50 true
      (some "a proper justification") 7).result = .ok () ∧
    (patchProofApprove storeProof sampleAdmin 50 false
      (some "a proper justification") 7).store.reports =
      storeProof.reports := by
  refine ⟨(proof_review_effects storeProof sampleAdmin 50
      (some "a proper justification") 7 pendingProof activeAssignment
      (by decide) (by decide) (by decide)).1.1, ?_⟩
  exact (proof_review_effects storeProof sampleAdmin 50
      (some "a proper justification") 7 pendingProof activeAssignment
      (by decide) (by decide) (by decide)).2.2.2.1

/-- C8: blocking a contractor with a valid justification sets isBlocked,
force-cancels exactly the ASSIGNED / IN_PROGRESS assignments of that
contractor with the system reason and timestamp, leaves every other
assignment unchanged, leaves no active assignment of the contractor behind,
and appends exactly one audit-log entry with entity type CONTRACTOR and
action type BLOCKED. -/
theorem contractor_block_cascade
    (s : Store) (actor : Actor) (cid : Nat) (j : Option String) (now : Nat)
    (c : Contractor)
    (hj : justificationValid j = true)
    (hfc : findContractor s.contractors cid = some c) :
    (patchContractorBlock s actor cid true j now).result = .ok () ∧
    (∀ c2 ∈ (patchContractorBlock s actor cid true j now).store.contractors,
      c2.id = cid → c2.isBlocked = true) ∧
    (∀ a ∈ s.assignments, a.contractorId = cid →
      (a.status = .ASSIGNED ∨ a.status = .IN_PROGRESS) →
      ({ a with
          status := .CANCELLED,
          cancelledAt := some now,
          cancelReason := some "Contractor blocked by admin" } : Assignment) ∈
        (patchContractorBlock s actor cid true j now).store.assignments) ∧
    (∀ a ∈ s.assignments,
      a.contractorId ≠ cid ∨ (a.status ≠ .ASSIGNED ∧ a.status ≠ .IN_PROGRESS) →
      a ∈ (patchContractorBlock s actor cid true j now).store.assignments) ∧
    (∀ a2 ∈ (patchContractorBlock s actor cid true j now).store.assignments,
      a2.contractorId = cid →
        a2.status ≠ .ASSIGNED ∧ a2.status ≠ .IN_PROGRESS) ∧
    (∃ e : AdminLogEntry,
      (patchContractorBlock s actor cid true j now).store.adminLogs =
        s.adminLogs ++ [e] ∧
      e.entityType = "CONTRACTOR" ∧ e.actionType = "BLOCKED") := by
  refine ⟨by simp [patchContractorBlock, hj, hfc],
    fun c2 hc2 hid => ?_, fun a ha hcid hst => ?_, fun a ha hother => ?_,
    fun a2 ha2 hcid => ?_, ?_⟩
  · simp only [patchContractorBlock, hj, hfc, if_true, updateContractorIn,
      List.mem_map] at hc2
    obtain ⟨c0, _, rfl⟩ := hc2
    by_cases h : c0.id = cid
    · rw [if_pos h]
    · rw [if_neg h] at hid
      exact absurd hid h
  · simp only [patchContractorBlock, hj, hfc, if_true, List.mem_map]
    exact ⟨a, ha, by rw [if_pos ⟨hcid, hst⟩]⟩
  · simp only [patchContractorBlock, hj, hfc, if_true, List.mem_map]
    refine ⟨a, ha, ?_⟩
    rw [if_neg ?_]
    rcases hother with h | ⟨h1, h2⟩
    · exact fun hc => h hc.1
    · rintro ⟨-, h | h⟩
      · exact h1 h
      · exact h2 h
  · simp only [patchContractorBlock, hj, hfc, if_true, List.mem_map] at ha2
    obtain ⟨a0, _, rfl⟩ := ha2
    by_cases h : a0.contractorId = cid ∧
        (a0.status = .ASSIGNED ∨ a0.status = .IN_PROGRESS)
    · rw [if_pos h]
      refine ⟨?_, ?_⟩ <;> intro hcon <;> cases hcon
    · rw [if_neg h] at hcid ⊢
      push_neg at h
      exact h hcid
  · simp only [patchContractorBlock, hj, hfc, if_true]
    exact ⟨_, rfl, rfl, rfl⟩

/-- Witness for contractor_block_cascade: blocking contractor 100 in the
concrete store succeeds and leaves the cancelled row for assignment 21. -/
theorem contractor_block_cascade_witness :
    (patchContractorBlock storeBlock sampleAdmin 100 true
      (some "repeated delays reported by citizens") 7).result = .ok () ∧
    ({ activeAssignment with
        status := .CANCELLED,
        cancelledAt := some 7,
        cancelReason := some "Contractor blocked by admin" } : Assignment) ∈
      (patchContractorBlock storeBlock sampleAdmin 100 true
        (some "repeated delays reported by citizens") 7).store.assignments := by
  refine ⟨(contractor_block_cascade storeBlock sampleAdmin 100
      (some "repeated delays reported by citizens") 7 sampleContractor
      (by decide) (by decide)).1, ?_⟩
  exact (contractor_block_cascade storeBlock sampleAdmin 100
      (some "repeated delays reported by citizens") 7 sampleContractor
      (by decide) (by decide)).2.2.1 activeAssignment (by decide) (by decide)
      (by decide)

/-- In a list of bids whose ids are pairwise distinct, exactly one element
carries the id of a given member. -/
theorem countP_bid_id_eq_one (l : List Bid) (hnodup : (l.map Bid.id).Nodup)
    (b0 : Bid) (hmem : b0 ∈ l) (n : Nat) (hid : b0.id = n) :
    l.countP (fun b => decide (b.id = n)) = 1 := by
  subst hid
  induction l with
  | nil => cases hmem
  | cons x xs ih =>
    simp only [List.map_cons, List.nodup_cons] at hnodup
    rw [List.countP_cons]
    rcases List.mem_cons.1 hmem with rfl | hmem2
    · have h0 : xs.countP (fun b => decide (b.id = b0.id)) = 0 :=
        List.countP_eq_zero.2 (fun b hb => by
          simp only [decide_eq_true_eq]
          exact fun hbe => hnodup.1 (hbe ▸ List.mem_map_of_mem Bid.id hb))
      simp [h0]
    · have hx : ¬ x.id = b0.id := fun hxe =>
        hnodup.1 (hxe ▸ List.mem_map_of_mem Bid.id hmem2)
      rw [ih hnodup.2 hmem2]
      simp [hx]

/-- C2: after a successful acceptBid call, exactly one bid of the report is
ACCEPTED — the chosen one, stamped with the accepting actor and time — and
every other bid of the report is REJECTED (with a rejection timestamp); the
created assignment carries agreedCost equal to the accepted bid's proposed
cost and a deadline equal to the explicit one if given, otherwise now plus the
bid's estimated days; and the report is ASSIGNED. -/
theorem acceptBid_exactly_one_accepted
    (s : Store) (actor : Actor) (rid bidId : Nat) (j : Option String)
    (deadline : Option Nat) (now newAid : Nat) (b0 : Bid)
    (hnodup : (s.bids.map Bid.id).Nodup)
    (hfb : findBid s.bids bidId = some b0)
    (hok : (postBidAssign s actor rid bidId j deadline now newAid).result =
      .ok ()) :
    (postBidAssign s actor rid bidId j deadline now newAid).store.bids.countP
      (fun b => decide (b.reportId = rid) &&
        decide (b.status = BidStatus.ACCEPTED)) = 1 ∧
    (∀ b2 ∈ (postBidAssign s actor rid bidId j deadline now
        newAid).store.bids, b2.reportId = rid →
      (b2.id = bidId → b2.status = .ACCEPTED ∧
        b2.acceptedBy = some actor.id ∧ b2.acceptedAt = some now) ∧
      (b2.id ≠ bidId → b2.status = .REJECTED ∧ b2.rejectedAt = some now)) ∧
    (postBidAssign s actor rid bidId j deadline now newAid).store.assignments =
      s.assignments ++
        [{ id := newAid,
           reportId := rid,
           contractorId := b0.contractorId,
           assignedById := actor.id,
           bidId := some bidId,
           agreedCost := some b0.proposedCost,
           deadlineAt := some (match deadline with
             | some d => d
             | none => now + b0.estimatedDays * (24 * 60 * 60 * 1000)),
           status := .ASSIGNED,
           completedAt := none,
           cancelledAt := none,
           cancelReason := none }] ∧
    (∀ r2 ∈ (postBidAssign s actor rid bidId j deadline now
        newAid).store.reports, r2.id = rid → r2.status = .ASSIGNED) := by
  have hb0mem : b0 ∈ s.bids := List.mem_of_find?_eq_some hfb
  have hb0id : b0.id = bidId := by
    have h := List.find?_some hfb
    simpa using h
  cases hjv : justificationValid j with
  | false => exact absurd hok (by simp [postBidAssign, hjv])
  | true =>
    by_cases hbel : b0.reportId = rid
    case neg => exact absurd hok (by simp [postBidAssign, hjv, hfb, hbel])
    case pos =>
      by_cases hex0 : assignmentExistsFor { s with bids := updateBidIn s.bids bidId (fun b => { b with status := .ACCEPTED, acceptedAt := some now, acceptedBy := some actor.id }) } rid = true
      · exact absurd hok (by simp [postBidAssign, hjv, hfb, hbel, hex0])
      · rw [Bool.not_eq_true] at hex0
        have hbel2 : ¬ (b0.reportId ≠ rid) := by simp [hbel]
        have hex2 : ¬ (assignmentExistsFor { s with bids := updateBidIn s.bids bidId (fun b => { b with status := .ACCEPTED, acceptedAt := some now, acceptedBy := some actor.id }) } rid = true) := by
          simp [hex0]
        refine ⟨?_, ?_, ?_, ?_⟩
        · simp only [postBidAssign, hjv, hfb, if_true]
          rw [if_neg hbel2, if_neg hex2]
          dsimp only
          simp only [updateBidIn]
          rw [List.map_map, List.countP_map]
          refine (List.countP_congr fun b hb => ?_).trans
            (countP_bid_id_eq_one s.bids hnodup b0 hb0mem bidId hb0id)
          by_cases hid : b.id = bidId
          · have hbb0 : b = b0 :=
              List.inj_on_of_nodup_map hnodup hb hb0mem (by rw [hid, hb0id])
            subst hbb0
            simp [Function.comp, hb0id, hbel]
          · by_cases hr : b.reportId = rid
            · simp [Function.comp, hid, hr]
            · simp [Function.comp, hid, hr]
        · intro b2 hb2 hrep2
          simp only [postBidAssign, hjv, hfb, if_true] at hb2
          rw [if_neg hbel2, if_neg hex2] at hb2
          dsimp only at hb2
          simp only [updateBidIn, List.map_map, List.mem_map] at hb2
          obtain ⟨b, hb, rfl⟩ := hb2
          by_cases hid : b.id = bidId
          · have hbb0 : b = b0 :=
              List.inj_on_of_nodup_map hnodup hb hb0mem (by rw [hid, hb0id])
            subst hbb0
            refine ⟨fun _ => ?_, fun hne => absurd ?_ hne⟩
            · simp [Function.comp, hb0id]
            · simp [Function.comp, hb0id]
          · by_cases hr : b.reportId = rid
            · refine ⟨fun hcon => absurd ?_ hid, fun _ => ?_⟩
              · simpa [Function.comp, hid, hr] using hcon
              · simp [Function.comp, hid, hr]
            · exfalso
              simp [Function.comp, hid, hr] at hrep2
        · simp only [postBidAssign, hjv, hfb, if_true]
          rw [if_neg hbel2, if_neg hex2]
          cases deadline <;> rfl
        · intro r2 hr2 hid2
          simp only [postBidAssign, hjv, hfb, if_true] at hr2
          rw [if_neg hbel2, if_neg hex2] at hr2
          dsimp only at hr2
          simp only [updateReportIn, List.mem_map] at hr2
          obtain ⟨r0, _, rfl⟩ := hr2
          by_cases h : r0.id = rid
          · rw [if_pos h]
          · rw [if_neg h] at hid2
            exact absurd hid2 h

/-- A pending bid of contractor 100 on report 1. -/
def bidChosen : Bid :=
  { id := 10, reportId := 1, contractorId := 100, proposedCost := 500,
    estimatedDays := 3, isPreferred := false, status := .PENDING,
    acceptedAt := none, acceptedBy := none, rejectedAt := none }

/-- A competing pending bid on report 1. -/
def bidOther : Bid :=
  { bidChosen with id := 11, contractorId := 101, proposedCost := 600 }

/-- Store for the bid-acceptance scenario. -/
def storeBids : Store :=
  { emptyStore with
      reports := [{ baseReport with status := .IN_BIDDING }],
      bids := [bidChosen, bidOther],
      contractors := [sampleContractor] }

/-- Witness for acceptBid_exactly_one_accepted: accepting bid 10 on report 1
of the concrete store leaves exactly one ACCEPTED bid on the report. -/
theorem acceptBid_exactly_one_accepted_witness :
    (postBidAssign storeBids sampleAdmin 1 10 (some "a proper justification")
      none 5 78).store.bids.countP
      (fun b => decide (b.reportId = 1) &&
        decide (b.status = BidStatus.ACCEPTED)) = 1 :=
  (acceptBid_exactly_one_accepted storeBids sampleAdmin 1 10
    (some "a proper justification") none 5 78 bidChosen (by decide)
    (by decide) (by decide)).1

/-- Appending one assignment for a report that previously had none preserves
the at-most-one-active-assignment bound for every report. -/
theorem atMostOneActive_append (l : List Assignment) (a : Assignment)
    (hfresh : ∀ x ∈ l, x.reportId ≠ a.reportId)
    (hbound : ∀ rid, l.countP
      (fun x => decide (x.reportId = rid) && x.isActive) ≤ 1) :
    ∀ rid, (l ++ [a]).countP
      (fun x => decide (x.reportId = rid) && x.isActive) ≤ 1 := by
  intro rid
  rw [List.countP_append]
  by_cases hr : a.reportId = rid
  · have h0 : l.countP (fun x => decide (x.reportId = rid) && x.isActive) = 0 :=
      List.countP_eq_zero.2 (fun x hx hpx => by
        simp only [Bool.and_eq_true, decide_eq_true_eq] at hpx
        exact hfresh x hx (hpx.1.trans hr.symm))
    rw [h0]
    simp only [Nat.zero_add, List.countP_cons, List.countP_nil]
    split <;> simp
  · have h1 : ([a].countP
        (fun x => decide (x.reportId = rid) && x.isActive)) = 0 := by
      simp [List.countP_cons, hr]
    rw [h1]
    simpa using hbound rid

/-- C3: under the one-assignment-per-report store constraint, both admission
paths — direct assignment and bid acceptance — preserve the invariant that at
most one active (neither CANCELLED nor COMPLETED) assignment references any
report; in particular, invoked on a report that already has an assignment,
the create fails and no second assignment appears. -/
theorem admission_preserves_single_active_assignment
    (s : Store) (actor : Actor) (id bidId newAid : Nat)
    (contractorId departmentId deadline : Option Nat) (j : Option String)
    (now : Nat)
    (hinv : atMostOneActivePerReport s) :
    atMostOneActivePerReport
      (patchReportAssign s actor id contractorId departmentId deadline j now
        newAid).store ∧
    atMostOneActivePerReport
      (postBidAssign s actor id bidId j deadline now newAid).store := by
  constructor
  · cases hjv : justificationValid j with
    | false =>
      intro rid
      simpa [activeAssignmentCount, patchReportAssign, hjv] using hinv rid
    | true =>
      cases hfr : findReport s.reports id with
      | none =>
        intro rid
        simpa [activeAssignmentCount, patchReportAssign, hjv, hfr]
          using hinv rid
      | some r =>
        cases contractorId with
        | none =>
          intro rid
          simpa [activeAssignmentCount, patchReportAssign, hjv, hfr]
            using hinv rid
        | some cid =>
          cases hfc : findContractor s.contractors cid with
          | none =>
            intro rid
            simpa [activeAssignmentCount, patchReportAssign, hjv, hfr, hfc]
              using hinv rid
          | some c =>
            by_cases hex : assignmentExistsFor s id = true
            · intro rid
              simpa [activeAssignmentCount, patchReportAssign, hjv, hfr, hfc,
                hex] using hinv rid
            · rw [Bool.not_eq_true] at hex
              have hfresh : ∀ x ∈ s.assignments, x.reportId ≠ id := by
                intro x hx hxe
                simp only [assignmentExistsFor, List.any_eq_true,
                  decide_eq_true_eq] at hex
                rw [List.any_eq_false] at hex
                exact hex x hx (by simp [hxe])
              intro rid
              have hgoal := atMostOneActive_append s.assignments
                { id := newAid, reportId := id, contractorId := cid,
                  assignedById := actor.id, bidId := none, agreedCost := none,
                  deadlineAt := deadline, status := .ASSIGNED,
                  completedAt := none, cancelledAt := none,
                  cancelReason := none }
                hfresh (fun rid2 => hinv rid2) rid
              simpa [activeAssignmentCount, patchReportAssign, hjv, hfr, hfc,
                hex] using hgoal
  · cases hjv : justificationValid j with
    | false =>
      intro rid
      simpa [activeAssignmentCount, postBidAssign, hjv] using hinv rid
    | true =>
      cases hfb : findBid s.bids bidId with
      | none =>
        intro rid
        simpa [activeAssignmentCount, postBidAssign, hjv, hfb] using hinv rid
      | some b =>
        by_cases hbel : b.reportId = id
        case neg =>
          intro rid
          simpa [activeAssignmentCount, postBidAssign, hjv, hfb, hbel]
            using hinv rid
        case pos =>
          by_cases hex : assignmentExistsFor { s with bids := updateBidIn s.bids bidId (fun b2 => { b2 with status := .ACCEPTED, acceptedAt := some now, acceptedBy := some actor.id }) } id = true
          · intro rid
            simpa [activeAssignmentCount, postBidAssign, hjv, hfb, hbel, hex]
              using hinv rid
          · rw [Bool.not_eq_true] at hex
            have hfresh : ∀ x ∈ s.assignments, x.reportId ≠ id := by
              intro x hx hxe
              simp only [assignmentExistsFor, List.any_eq_true,
                decide_eq_true_eq] at hex
              rw [List.any_eq_false] at hex
              exact hex x hx (by simp [hxe])
            intro rid
            have hgoal := atMostOneActive_append s.assignments
              { id := newAid, reportId := id, contractorId := b.contractorId,
                assignedById := actor.id, bidId := some bidId,
                agreedCost := some b.proposedCost,
                deadlineAt := some (match deadline with
                  | some d => d
                  | none => now + b.estimatedDays * (24 * 60 * 60 * 1000)),
                status := .ASSIGNED, completedAt := none, cancelledAt := none,
                cancelReason := none }
              hfresh (fun rid2 => hinv rid2) rid
            simpa [activeAssignmentCount, postBidAssign, hjv, hfb, hbel, hex]
              using hgoal

/-- Witness for admission_preserves_single_active_assignment at the concrete
bid store (no assignment yet): both admission paths leave report 1 with at
most one active assignment. -/
theorem admission_preserves_single_active_assignment_witness :
    activeAssignmentCount (patchReportAssign storeBids sampleAdmin 1 (some 100)
      none none (some "a proper justification") 5 77).store 1 ≤ 1 ∧
    activeAssignmentCount (postBidAssign storeBids sampleAdmin 1 10
      (some "a proper justification") none 5 78).store 1 ≤ 1 := by
  have hinv : atMostOneActivePerReport storeBids := by
    intro rid
    simp [activeAssignmentCount, storeBids, emptyStore]
  exact ⟨(admission_preserves_single_active_assignment storeBids sampleAdmin 1
      10 77 (some 100) none none (some "a proper justification") 5 hinv).1 1,
    (admission_preserves_single_active_assignment storeBids sampleAdmin 1 10
      78 (some 100) none none (some "a proper justification") 5 hinv).2 1⟩
